import Mathlib

/-!
# Verification of the ASTx Python transpiler (`src/astx/transpilers/python.py`)

We shallowly embed the reference backend `ASTxPythonTranspiler`.  The
transpiler is a visitor with a single piece of mutable instance state, the
integer `indent_level` (initialised to 0 in `__init__`, together with the
fixed indentation unit `indent_str = "    "`).  We model the visitor as a
function threading the indentation level explicitly; a raised Python
exception is modelled by `Except.error`, and — because the instance state
survives an exception — the error value carries the indentation level at
the moment the exception was raised, exactly as a Python caller would
observe it on the instance after catching the exception.

Node classes live in `astx.base`, `astx.blocks`, `astx.callables`,
`astx.packages`, … which are data holders; the transpiler only reads the
fields listed below, so the embedding gives each variant exactly those
fields.  Optional string-valued fields (`AliasExpr.asname`,
`ImportFromStmt.module`) are tested for truthiness in the Python code, so
they are modelled as `String` with `""` playing the role of absent/falsy;
optional node-valued fields (`FunctionReturn.value`,
`FunctionPrototype.return_type`) are modelled as `Option AST`.
-/

namespace Astx

/-- The ASTx node variants visited by `ASTxPythonTranspiler`, with the fields
the transpiler reads.  `Unhandled` stands for any of the many node variants
for which the backend registers no `visit` method (e.g. `IfStmt`,
`WhileStmt`, `ClassDefStmt`, …): it records the variant name and the node's
human-readable diagnostic name. -/
inductive AST where
  | AliasExpr (name : String) (asname : String)
  | Argument (name : String) (type_ : AST)
  | Arguments (nodes : List AST)
  | BinaryOp (op_code : String) (lhs : AST) (rhs : AST)
  | Block (nodes : List AST)
  | ImportFromStmt (module : String) (names : List AST) (level : Nat)
  | ImportStmt (names : List AST)
  | ImportFromExpr (module : String) (names : List AST) (level : Nat)
  | ImportExpr (names : List AST)
  | Int32Type
  | LiteralBoolean (value : Bool)
  | LiteralInt32 (value : Int)
  | Function (name : String) (args : AST) (return_type : Option AST) (body : AST)
  | FunctionReturn (value : Option AST)
  | UnaryOp (op_code : String) (operand : AST)
  | Variable (name : String)
  | VariableAssignment (name : String) (value : AST)
  | Unhandled (variant : String) (diagName : String)

/-- Python's `s * n` for strings: `n` copies of `s` concatenated. -/
def strRepeat (s : String) (n : Nat) : String :=
  String.join (List.replicate n s)

/-- `self.indent_str`, set in `__init__` to four spaces. -/
def indent_str : String := "    "

/-- Modelled from the spec: the printed form of an astx node (its
`__str__`, defined in `astx.base`, which is not part of the transpiler
source).  Per the spec every node carries a discriminant identifying its
concrete variant and a human-readable name used in diagnostics; its printed
form shows the variant and that diagnostic name. -/
def astNodeStr (variant diagName : String) : String :=
  variant ++ "[" ++ diagName ++ "]"

/-- Result of one `visit` call: on success the produced text together with
the indentation level the instance is left at; on a raised exception the
message together with the indentation level the instance is left at. -/
abbrev VisitResult := Except (String × Nat) (String × Nat)

mutual

/-- `ASTxPythonTranspiler.visit`, with `self.indent_level` threaded
explicitly as `lvl`. -/
def visit : AST → Nat → VisitResult
  | .AliasExpr name asname, lvl =>
      if asname ≠ "" then .ok (name ++ " as " ++ asname, lvl)
      else .ok (name, lvl)
  | .Argument name type_, lvl =>
      match visit type_ lvl with
      | .error e => .error e
      | .ok (t, lvl') => .ok (name ++ ": " ++ t, lvl')
  | .Arguments nodes, lvl =>
      match visitList nodes lvl with
      | .error e => .error e
      | .ok (ss, lvl') => .ok (String.intercalate ", " ss, lvl')
  | .BinaryOp op_code lhs rhs, lvl =>
      match visit lhs lvl with
      | .error e => .error e
      | .ok (l, lvl1) =>
        match visit rhs lvl1 with
        | .error e => .error e
        | .ok (r, lvl2) => .ok ("(" ++ l ++ " " ++ op_code ++ " " ++ r ++ ")", lvl2)
  | .Block nodes, lvl =>
      -- body of `_generate_block`, inlined (see `generate_block` below)
      match visitList nodes (lvl + 1) with
      | .error e => .error e
      | .ok (ss, lvl') =>
        let lines := ss.map (fun s => strRepeat indent_str (lvl + 1) ++ s)
        let result :=
          if lines.isEmpty then strRepeat indent_str lvl' ++ "pass"
          else String.intercalate "\n" lines
        .ok (result, lvl' - 1)
  | .ImportFromStmt module names level, lvl =>
      match visitList names lvl with
      | .error e => .error e
      | .ok (names', lvl') =>
        let level_dots := strRepeat "." level
        let module_str := if module ≠ "" then level_dots ++ module else level_dots
        let names_str := String.intercalate ", " names'
        .ok ("from " ++ module_str ++ " import " ++ names_str, lvl')
  | .ImportStmt names, lvl =>
      match visitList names lvl with
      | .error e => .error e
      | .ok (names', lvl') =>
        .ok ("import " ++ String.intercalate ", " names', lvl')
  | .ImportFromExpr module names level, lvl =>
      match visitList names lvl with
      | .error e => .error e
      | .ok (names', lvl') =>
        let level_dots := strRepeat "." level
        let module_str := if module ≠ "" then level_dots ++ module else level_dots
        let names_list := names'.map (fun name =>
          "getattr(__import__('" ++ module_str ++ "', fromlist=['" ++ name ++
            "']), '" ++ name ++ "')")
        let names_str := String.intercalate ", " names_list
        let num := (List.range' 1 names'.length).map
          (fun n => if names'.length == 1 then "" else toString n)
        let call := num.map (fun n => "name" ++ n)
        let call_str := String.intercalate ", " call
        let names_str2 :=
          if names_list.length == 1 then names_str else "(" ++ names_str ++ ")"
        .ok (call_str ++ " = " ++ names_str2, lvl')
  | .ImportExpr names, lvl =>
      match visitList names lvl with
      | .error e => .error e
      | .ok (names', lvl') =>
        let names_list := names'.map (fun name => "__import__('" ++ name ++ "') ")
        let names_str := String.intercalate ", " names_list
        let num := (List.range' 1 names'.length).map
          (fun n => if names'.length == 1 then "" else toString n)
        let call := num.map (fun n => "module" ++ n)
        let call_str := String.intercalate ", " call
        let names_str2 :=
          if names_list.length == 1 then names_str else "(" ++ names_str ++ ")"
        .ok (call_str ++ " = " ++ names_str2, lvl')
  | .Int32Type, lvl => .ok ("int", lvl)
  | .LiteralBoolean value, lvl => .ok (if value then "True" else "False", lvl)
  | .LiteralInt32 value, lvl => .ok (toString value, lvl)
  | .Function name args (some rt) body, lvl =>
      match visit args lvl with
      | .error e => .error e
      | .ok (argsStr, lvl1) =>
        match visit rt lvl1 with
        | .error e => .error e
        | .ok (rtStr, lvl2) =>
          match visit body lvl2 with
          | .error e => .error e
          | .ok (bodyStr, lvl3) =>
            .ok ("def " ++ name ++ "(" ++ argsStr ++ ")" ++ " -> " ++ rtStr ++
              ":" ++ "\n" ++ bodyStr, lvl3)
  | .Function name args none body, lvl =>
      match visit args lvl with
      | .error e => .error e
      | .ok (argsStr, lvl1) =>
        match visit body lvl1 with
        | .error e => .error e
        | .ok (bodyStr, lvl3) =>
          .ok ("def " ++ name ++ "(" ++ argsStr ++ ")" ++ ":" ++ "\n" ++ bodyStr,
            lvl3)
  | .FunctionReturn (some v), lvl =>
      match visit v lvl with
      | .error e => .error e
      | .ok (s, lvl') => .ok ("return " ++ s, lvl')
  | .FunctionReturn none, lvl => .ok ("return ", lvl)
  | .UnaryOp op_code operand, lvl =>
      match visit operand lvl with
      | .error e => .error e
      | .ok (s, lvl') => .ok ("(" ++ op_code ++ s ++ ")", lvl')
  | .Variable name, lvl => .ok (name, lvl)
  | .VariableAssignment name value, lvl =>
      match visit value lvl with
      | .error e => .error e
      | .ok (s, lvl') => .ok (name ++ " = " ++ s, lvl')
  | .Unhandled variant diagName, lvl =>
      .error ("Not implemented yet (" ++ astNodeStr variant diagName ++ ").", lvl)
termination_by structural e => e

/-- Visits a list of nodes left to right, threading the indentation level,
as a Python list comprehension `[... self.visit(node) for node in ...]`
does; the first raised exception aborts the whole comprehension. -/
def visitList : List AST → Nat → Except (String × Nat) (List String × Nat)
  | [], lvl => .ok ([], lvl)
  | n :: ns, lvl =>
      match visit n lvl with
      | .error e => .error e
      | .ok (s, lvl') =>
        match visitList ns lvl' with
        | .error e => .error e
        | .ok (ss, lvl'') => .ok (s :: ss, lvl'')
termination_by structural ns => ns

end

/-- `ASTxPythonTranspiler._generate_block`: `indent_level` is incremented,
the indent string is computed, each statement is visited (state threaded in
order, as the Python list comprehension evaluates left to right), and the
level is decremented only on the normal return path — an exception raised
by a child propagates with the level as the child left it.  Its body is
inlined at the `Block` case of `visit` (see `visit_block_eq`). -/
def generate_block (nodes : List AST) (lvl : Nat) : VisitResult :=
  match visitList nodes (lvl + 1) with
  | .error e => .error e
  | .ok (ss, lvl') =>
    let lines := ss.map (fun s => strRepeat indent_str (lvl + 1) ++ s)
    let result :=
      if lines.isEmpty then strRepeat indent_str lvl' ++ "pass"
      else String.intercalate "\n" lines
    .ok (result, lvl' - 1)

theorem visit_block_eq (nodes : List AST) (lvl : Nat) :
    visit (.Block nodes) lvl = generate_block nodes lvl := rfl

end Astx

namespace Astx

mutual

/-- Whether a tree contains a node variant with no registered handler. -/
def containsUnhandled : AST → Bool
  | .AliasExpr _ _ => false
  | .Argument _ type_ => containsUnhandled type_
  | .Arguments nodes => listContainsUnhandled nodes
  | .BinaryOp _ lhs rhs => containsUnhandled lhs || containsUnhandled rhs
  | .Block nodes => listContainsUnhandled nodes
  | .ImportFromStmt _ names _ => listContainsUnhandled names
  | .ImportStmt names => listContainsUnhandled names
  | .ImportFromExpr _ names _ => listContainsUnhandled names
  | .ImportExpr names => listContainsUnhandled names
  | .Int32Type => false
  | .LiteralBoolean _ => false
  | .LiteralInt32 _ => false
  | .Function _ args (some rt) body =>
      containsUnhandled args || containsUnhandled rt || containsUnhandled body
  | .Function _ args none body => containsUnhandled args || containsUnhandled body
  | .FunctionReturn (some v) => containsUnhandled v
  | .FunctionReturn none => false
  | .UnaryOp _ operand => containsUnhandled operand
  | .Variable _ => false
  | .VariableAssignment _ value => containsUnhandled value
  | .Unhandled _ _ => true
termination_by structural e => e

/-- Whether any node in a list contains an unhandled variant. -/
def listContainsUnhandled : List AST → Bool
  | [] => false
  | n :: ns => containsUnhandled n || listContainsUnhandled ns
termination_by structural ns => ns

end

mutual

/-- A successful `visit` leaves the indentation level exactly where it
found it, and can only happen on a tree all of whose nodes have handlers. -/
theorem visit_ok_inv (e : AST) (lvl : Nat) (s : String) (lvl' : Nat)
    (h : visit e lvl = .ok (s, lvl')) :
    lvl' = lvl ∧ containsUnhandled e = false := by
  cases e with
  | AliasExpr name asname =>
      simp only [visit] at h
      split at h <;> simp_all [containsUnhandled]
  | Argument name type_ =>
      cases hv : visit type_ lvl with
      | error e' => simp only [visit, hv] at h; exact Except.noConfusion h
      | ok p =>
          obtain ⟨t, lvlt⟩ := p
          simp only [visit, hv, Except.ok.injEq, Prod.mk.injEq] at h
          obtain ⟨hin, hlvl⟩ := visit_ok_inv type_ lvl t lvlt hv
          simp_all [containsUnhandled]
  | Arguments nodes =>
      cases hv : visitList nodes lvl with
      | error e' => simp only [visit, hv] at h; exact Except.noConfusion h
      | ok p =>
          obtain ⟨ss, lvlt⟩ := p
          simp only [visit, hv, Except.ok.injEq, Prod.mk.injEq] at h
          obtain ⟨hin, hlvl⟩ := visitList_ok_inv nodes lvl ss lvlt hv
          simp_all [containsUnhandled]
  | BinaryOp op lhs rhs =>
      cases hv : visit lhs lvl with
      | error e' => simp only [visit, hv] at h; exact Except.noConfusion h
      | ok p =>
          obtain ⟨l, lvl1⟩ := p
          cases hw : visit rhs lvl1 with
          | error e' => simp only [visit, hv, hw] at h; exact Except.noConfusion h
          | ok q =>
              obtain ⟨r, lvl2⟩ := q
              simp only [visit, hv, hw, Except.ok.injEq, Prod.mk.injEq] at h
              obtain ⟨h1, h2⟩ := visit_ok_inv lhs lvl l lvl1 hv
              obtain ⟨h3, h4⟩ := visit_ok_inv rhs lvl1 r lvl2 hw
              simp_all [containsUnhandled]
  | Block nodes =>
      cases hv : visitList nodes (lvl + 1) with
      | error e' => simp only [visit, hv] at h; exact Except.noConfusion h
      | ok p =>
          obtain ⟨ss, lvlt⟩ := p
          simp only [visit, hv, Except.ok.injEq, Prod.mk.injEq] at h
          obtain ⟨hin, hlvl⟩ := visitList_ok_inv nodes (lvl + 1) ss lvlt hv
          subst hin
          simp_all [containsUnhandled]
  | ImportFromStmt module names level =>
      cases hv : visitList names lvl with
      | error e' => simp only [visit, hv] at h; exact Except.noConfusion h
      | ok p =>
          obtain ⟨ss, lvlt⟩ := p
          simp only [visit, hv, Except.ok.injEq, Prod.mk.injEq] at h
          obtain ⟨hin, hlvl⟩ := visitList_ok_inv names lvl ss lvlt hv
          simp_all [containsUnhandled]
  | ImportStmt names =>
      cases hv : visitList names lvl with
      | error e' => simp only [visit, hv] at h; exact Except.noConfusion h
      | ok p =>
          obtain ⟨ss, lvlt⟩ := p
          simp only [visit, hv, Except.ok.injEq, Prod.mk.injEq] at h
          obtain ⟨hin, hlvl⟩ := visitList_ok_inv names lvl ss lvlt hv
          simp_all [containsUnhandled]
  | ImportFromExpr module names level =>
      cases hv : visitList names lvl with
      | error e' => simp only [visit, hv] at h; exact Except.noConfusion h
      | ok p =>
          obtain ⟨ss, lvlt⟩ := p
          simp only [visit, hv, Except.ok.injEq, Prod.mk.injEq] at h
          obtain ⟨hin, hlvl⟩ := visitList_ok_inv names lvl ss lvlt hv
          simp_all [containsUnhandled]
  | ImportExpr names =>
      cases hv : visitList names lvl with
      | error e' => simp only [visit, hv] at h; exact Except.noConfusion h
      | ok p =>
          obtain ⟨ss, lvlt⟩ := p
          simp only [visit, hv, Except.ok.injEq, Prod.mk.injEq] at h
          obtain ⟨hin, hlvl⟩ := visitList_ok_inv names lvl ss lvlt hv
          simp_all [containsUnhandled]
  | Int32Type => simp only [visit, Except.ok.injEq, Prod.mk.injEq] at h; simp_all [containsUnhandled]
  | LiteralBoolean value => simp only [visit, Except.ok.injEq, Prod.mk.injEq] at h; simp_all [containsUnhandled]
  | LiteralInt32 value => simp only [visit, Except.ok.injEq, Prod.mk.injEq] at h; simp_all [containsUnhandled]
  | Function name args return_type body =>
      cases return_type with
      | some rt =>
          cases hv : visit args lvl with
          | error e' => simp only [visit, hv] at h; exact Except.noConfusion h
          | ok p =>
              obtain ⟨argsStr, lvl1⟩ := p
              obtain ⟨h1, h2⟩ := visit_ok_inv args lvl argsStr lvl1 hv
              cases hr : visit rt lvl1 with
              | error e' => simp only [visit, hv, hr] at h; exact Except.noConfusion h
              | ok q =>
                  obtain ⟨rtStr, lvl2⟩ := q
                  obtain ⟨h3, h4⟩ := visit_ok_inv rt lvl1 rtStr lvl2 hr
                  cases hb : visit body lvl2 with
                  | error e' => simp only [visit, hv, hr, hb] at h; exact Except.noConfusion h
                  | ok w =>
                      obtain ⟨bodyStr, lvl3⟩ := w
                      obtain ⟨h5, h6⟩ := visit_ok_inv body lvl2 bodyStr lvl3 hb
                      simp only [visit, hv, hr, hb, Except.ok.injEq, Prod.mk.injEq] at h
                      simp_all [containsUnhandled]
      | none =>
          cases hv : visit args lvl with
          | error e' => simp only [visit, hv] at h; exact Except.noConfusion h
          | ok p =>
              obtain ⟨argsStr, lvl1⟩ := p
              obtain ⟨h1, h2⟩ := visit_ok_inv args lvl argsStr lvl1 hv
              cases hb : visit body lvl1 with
              | error e' => simp only [visit, hv, hb] at h; exact Except.noConfusion h
              | ok w =>
                  obtain ⟨bodyStr, lvl3⟩ := w
                  obtain ⟨h5, h6⟩ := visit_ok_inv body lvl1 bodyStr lvl3 hb
                  simp only [visit, hv, hb, Except.ok.injEq, Prod.mk.injEq] at h
                  simp_all [containsUnhandled]
  | FunctionReturn value =>
      cases value with
      | some v =>
          cases hv : visit v lvl with
          | error e' => simp only [visit, hv] at h; exact Except.noConfusion h
          | ok p =>
              obtain ⟨t, lvlt⟩ := p
              simp only [visit, hv, Except.ok.injEq, Prod.mk.injEq] at h
              obtain ⟨h1, h2⟩ := visit_ok_inv v lvl t lvlt hv
              simp_all [containsUnhandled]
      | none =>
          simp only [visit, Except.ok.injEq, Prod.mk.injEq] at h
          simp_all [containsUnhandled]
  | UnaryOp op operand =>
      cases hv : visit operand lvl with
      | error e' => simp only [visit, hv] at h; exact Except.noConfusion h
      | ok p =>
          obtain ⟨t, lvlt⟩ := p
          simp only [visit, hv, Except.ok.injEq, Prod.mk.injEq] at h
          obtain ⟨h1, h2⟩ := visit_ok_inv operand lvl t lvlt hv
          simp_all [containsUnhandled]
  | Variable name =>
      simp only [visit, Except.ok.injEq, Prod.mk.injEq] at h
      simp_all [containsUnhandled]
  | VariableAssignment name value =>
      cases hv : visit value lvl with
      | error e' => simp only [visit, hv] at h; exact Except.noConfusion h
      | ok p =>
          obtain ⟨t, lvlt⟩ := p
          simp only [visit, hv, Except.ok.injEq, Prod.mk.injEq] at h
          obtain ⟨h1, h2⟩ := visit_ok_inv value lvl t lvlt hv
          simp_all [containsUnhandled]
  | Unhandled variant diagName => simp only [visit] at h; exact Except.noConfusion h
termination_by structural e

/-- List version of `visit_ok_inv`. -/
theorem visitList_ok_inv (ns : List AST) (lvl : Nat) (ss : List String) (lvl' : Nat)
    (h : visitList ns lvl = .ok (ss, lvl')) :
    lvl' = lvl ∧ listContainsUnhandled ns = false := by
  cases ns with
  | nil =>
      simp only [visitList, Except.ok.injEq, Prod.mk.injEq] at h
      simp_all [listContainsUnhandled]
  | cons n ns' =>
      cases hv : visit n lvl with
      | error e' => simp only [visitList, hv] at h; exact Except.noConfusion h
      | ok p =>
          obtain ⟨s1, lvl1⟩ := p
          cases hw : visitList ns' lvl1 with
          | error e' => simp only [visitList, hv, hw] at h; exact Except.noConfusion h
          | ok q =>
              obtain ⟨ss1, lvl2⟩ := q
              simp only [visitList, hv, hw, Except.ok.injEq, Prod.mk.injEq] at h
              obtain ⟨h1, h2⟩ := visit_ok_inv n lvl s1 lvl1 hv
              obtain ⟨h3, h4⟩ := visitList_ok_inv ns' lvl1 ss1 lvl2 hw
              simp_all [listContainsUnhandled]
termination_by structural ns

end

end Astx

namespace Astx

/-- Rendering a list of plain (un-aliased) imported names: each
`AliasExpr n ""` renders as just `n`, and the indentation level is
untouched. -/
theorem visitList_plain_names (ns : List String) (lvl : Nat) :
    visitList (ns.map (fun n => AST.AliasExpr n "")) lvl = .ok (ns, lvl) := by
  induction ns with
  | nil => rfl
  | cons n ns ih => simp [visitList, visit, ih]

/-- Rendering a list of aliased names `(name, asname)` (with `""` for an
absent alias): each renders as `name as asname`, or `name` alone. -/
theorem visitList_aliases (ps : List (String × String)) (lvl : Nat) :
    visitList (ps.map (fun p => AST.AliasExpr p.1 p.2)) lvl =
      .ok (ps.map (fun p => if p.2 ≠ "" then p.1 ++ " as " ++ p.2 else p.1), lvl) := by
  induction ps with
  | nil => rfl
  | cons p ps ih =>
      by_cases hp : p.2 = "" <;> simp [visitList, visit, hp, ih]

/-- The getattr-over-`__import__` lookup call emitted by the
`ImportFromExpr` handler for one imported name. -/
def fromImportLookup (module_str name : String) : String :=
  "getattr(__import__('" ++ module_str ++ "', fromlist=['" ++ name ++ "']), '" ++
    name ++ "')"

/-- The module-lookup call emitted by the `ImportExpr` handler for one
module name — note the trailing space after the closing parenthesis,
exactly as in the source's f-string `f"__import__('{name}') "`. -/
def importLookup (name : String) : String :=
  "__import__('" ++ name ++ "') "

/-- The synthetic bindings of the spec's import-expression rewriting: the
bare prefix when there is a single name, else `pre1, pre2, …, preN`. -/
def syntheticBindings (pre : String) (n : Nat) : String :=
  if n = 1 then pre
  else String.intercalate ", " ((List.range' 1 n).map (fun i => pre ++ toString i))

end Astx

namespace Astx

/-- C4 counterexample: rendering a `FunctionReturn` with no value does not
yield the bare token `return` — the handler formats `f"return {value}"`
with `value = ""`, so the output is `"return "` with a trailing space. -/
theorem functionReturn_bare_return_cex :
    visit (AST.FunctionReturn none) 0 = .ok ("return ", 0) ∧
      ("return " : String) ≠ "return" := by
  exact ⟨rfl, by decide⟩

/-- C4 (amended): rendering a `FunctionReturn` with a value yields
`return VALUE`; rendering one with no value yields `"return "` with a
single trailing space (the handler's format string keeps the space after
`return` even when the value part is empty). -/
theorem functionReturn_render :
    (∀ lvl : Nat, visit (AST.FunctionReturn none) lvl = .ok ("return ", lvl)) ∧
    (∀ (v : AST) (lvl : Nat) (r : String) (lvl' : Nat),
      visit v lvl = .ok (r, lvl') →
      visit (AST.FunctionReturn (some v)) lvl = .ok ("return " ++ r, lvl')) := by
  constructor
  · intro lvl; rfl
  · intro v lvl r lvl' h
    simp only [visit, h]

/-- Witness for `functionReturn_render` at a concrete input. -/
theorem functionReturn_render_witness :
    visit (AST.FunctionReturn (some (AST.Variable "x"))) 0 = .ok ("return x", 0) := by
  have h := functionReturn_render.2 (AST.Variable "x") 0 "x" 0 rfl
  simpa using h

/-- C7: binary and unary operations are unconditionally fully
parenthesized — `(lhs OP rhs)` and `(OP operand)` — and in particular the
tree for `a + b * c` with `*` nested under `+` renders as `(a + (b * c))`. -/
theorem full_parenthesization :
    (∀ (op : String) (lhs rhs : AST) (lvl : Nat) (l r : String) (lvl1 lvl2 : Nat),
      visit lhs lvl = .ok (l, lvl1) → visit rhs lvl1 = .ok (r, lvl2) →
      visit (AST.BinaryOp op lhs rhs) lvl =
        .ok ("(" ++ l ++ " " ++ op ++ " " ++ r ++ ")", lvl2)) ∧
    (∀ (op : String) (operand : AST) (lvl : Nat) (s : String) (lvl' : Nat),
      visit operand lvl = .ok (s, lvl') →
      visit (AST.UnaryOp op operand) lvl = .ok ("(" ++ op ++ s ++ ")", lvl')) ∧
    visit (AST.BinaryOp "+" (AST.Variable "a")
        (AST.BinaryOp "*" (AST.Variable "b") (AST.Variable "c"))) 0 =
      .ok ("(a + (b * c))", 0) := by
  refine ⟨?_, ?_, rfl⟩
  · intro op lhs rhs lvl l r lvl1 lvl2 h1 h2
    simp only [visit, h1, h2]
  · intro op operand lvl s lvl' h
    simp only [visit, h]

/-- Witness for `full_parenthesization` at concrete inputs. -/
theorem full_parenthesization_witness :
    visit (AST.BinaryOp "-" (AST.Variable "u") (AST.Variable "v")) 0 =
        .ok ("(u - v)", 0) ∧
      visit (AST.UnaryOp "-" (AST.Variable "w")) 0 = .ok ("(-w)", 0) := by
  constructor
  · have h := full_parenthesization.1 "-" (AST.Variable "u") (AST.Variable "v")
      0 "u" "v" 0 0 rfl rfl
    simpa using h
  · have h := full_parenthesization.2.1 "-" (AST.Variable "w") 0 "w" 0 rfl
    simpa using h

/-- C2 counterexample: `_generate_block` has no `try`/`finally`, so when a
child raises, the decrement is skipped: rendering a block whose only
statement is unhandled fails and leaves the indentation level at 1, not
the 0 the caller started with. -/
theorem indent_depth_error_path_cex :
    visit (AST.Block [AST.Unhandled "IfStmt" "if-stmt"]) 0 =
        .error ("Not implemented yet (IfStmt[if-stmt]).", 1) ∧
      (1 : Nat) ≠ 0 := by
  exact ⟨rfl, by decide⟩

/-- C2 (amended): on every successful render the indentation level seen by
the caller afterwards equals the level before the call; when rendering a
child raises, the level is not restored (see
`indent_depth_error_path_cex`). -/
theorem indent_depth_restored_on_success (e : AST) (lvl : Nat) (s : String)
    (lvl' : Nat) (h : visit e lvl = .ok (s, lvl')) : lvl' = lvl :=
  (visit_ok_inv e lvl s lvl' h).1

/-- Witness for `indent_depth_restored_on_success` at a concrete input. -/
theorem indent_depth_restored_on_success_witness :
    visit (AST.Block [AST.Variable "x"]) 3 = .ok ("                x", 3) ∧
      (3 : Nat) = 3 := by
  exact ⟨rfl, indent_depth_restored_on_success (AST.Block [AST.Variable "x"]) 3
    "                x" 3 rfl⟩

/-- C8: rendering is a pure, deterministic function of the tree; a
successful top-level render (from the initial indentation level 0) leaves
the backend state back at 0, so a second render call on the same instance
reproduces the identical text. -/
theorem render_pure_deterministic (t : AST) (s : String) (lvl' : Nat)
    (h : visit t 0 = .ok (s, lvl')) :
    lvl' = 0 ∧ visit t lvl' = .ok (s, lvl') := by
  have h0 := (visit_ok_inv t 0 s lvl' h).1
  subst h0
  exact ⟨rfl, h⟩

/-- Witness for `render_pure_deterministic` at a concrete input. -/
theorem render_pure_deterministic_witness :
    (0 : Nat) = 0 ∧
      visit (AST.VariableAssignment "a" (AST.LiteralInt32 1)) 0 = .ok ("a = 1", 0) := by
  have h := render_pure_deterministic (AST.VariableAssignment "a" (AST.LiteralInt32 1))
    "a = 1" 0 rfl
  exact ⟨h.1, h.2⟩

end Astx

namespace Astx

/-- Two-element case of `String.intercalate`. -/
theorem intercalate_pair (s a b : String) : String.intercalate s [a, b] = a ++ s ++ b := rfl

/-- Empty case of `String.intercalate`. -/
theorem intercalate_nil (s : String) : String.intercalate s [] = "" := rfl

/-- C3: a node variant with no registered handler always renders to the
unimplemented-construct error, whose message carries both the variant name
and the node's diagnostic name; and a tree containing such a node never
renders successfully — there is no silent fallback to empty or partial
text. -/
theorem unimplemented_construct_error :
    (∀ (variant diagName : String) (lvl : Nat),
      visit (AST.Unhandled variant diagName) lvl =
        .error ("Not implemented yet (" ++ (variant ++ "[" ++ diagName ++ "]") ++ ").",
          lvl)) ∧
    (∀ (t : AST) (lvl : Nat), containsUnhandled t = true →
      ∀ (s : String) (lvl' : Nat), visit t lvl ≠ .ok (s, lvl')) := by
  constructor
  · intro v d lvl; rfl
  · intro t lvl hc s lvl' h
    have hfalse := (visit_ok_inv t lvl s lvl' h).2
    rw [hc] at hfalse
    exact Bool.noConfusion hfalse

/-- Witness for `unimplemented_construct_error` at a concrete input. -/
theorem unimplemented_construct_error_witness :
    visit (AST.Block [AST.Unhandled "WhileStmt" "while-1"]) 0 ≠ .ok ("", 0) :=
  unimplemented_construct_error.2 (AST.Block [AST.Unhandled "WhileStmt" "while-1"])
    0 rfl "" 0

/-- C6: an empty Block renders as exactly one no-op line — the indentation
for the block's depth followed by `pass` — never the empty string; and a
Function with an empty Block renders a body of exactly that one line. -/
theorem empty_block_renders_pass :
    (∀ lvl : Nat, visit (AST.Block []) lvl =
      .ok (strRepeat indent_str (lvl + 1) ++ "pass", lvl)) ∧
    (∀ lvl : Nat, 0 < (strRepeat indent_str (lvl + 1) ++ "pass").length) ∧
    (∀ (name : String) (d : Nat),
      visit (AST.Function name (AST.Arguments []) none (AST.Block [])) d =
        .ok ("def " ++ name ++ "():" ++ "\n" ++ strRepeat indent_str (d + 1) ++ "pass",
          d)) := by
  refine ⟨?_, ?_, ?_⟩
  · intro lvl
    simp [visit, visitList]
  · intro lvl
    rw [String.length_append]
    have h4 : ("pass" : String).length = 4 := rfl
    omega
  · intro name d
    simp [visit, visitList, intercalate_nil, String.append_assoc]

/-- C5: a `Function` whose body is a `Block` of two statements renders as
one `def NAME(ARGS):` header (no return-type arrow when none is present)
followed by the two body lines in statement order, each prefixed with the
indentation unit repeated `d + 1` times, all newline-joined. -/
theorem function_block_depth_consistency
    (name : String) (d : Nat) (argsNode : AST) (argsStr : String)
    (s1 s2 : AST) (r1 r2 : String)
    (hargs : visit argsNode d = .ok (argsStr, d))
    (h1 : visit s1 (d + 1) = .ok (r1, d + 1))
    (h2 : visit s2 (d + 1) = .ok (r2, d + 1)) :
    visit (AST.Function name argsNode none (AST.Block [s1, s2])) d =
      .ok ("def " ++ name ++ "(" ++ argsStr ++ "):" ++ "\n" ++
        strRepeat indent_str (d + 1) ++ r1 ++ "\n" ++
        strRepeat indent_str (d + 1) ++ r2, d) := by
  simp only [visit, hargs, visitList, h1, h2]
  simp [intercalate_pair, String.append_assoc]

/-- Witness for `function_block_depth_consistency` at a concrete input. -/
theorem function_block_depth_consistency_witness :
    visit (AST.Function "f" (AST.Arguments []) none
        (AST.Block [AST.VariableAssignment "a" (AST.LiteralInt32 1),
          AST.FunctionReturn (some (AST.Variable "a"))])) 0 =
      .ok ("def f():\n    a = 1\n    return a", 0) := by
  have h := function_block_depth_consistency "f" 0 (AST.Arguments []) ""
    (AST.VariableAssignment "a" (AST.LiteralInt32 1))
    (AST.FunctionReturn (some (AST.Variable "a"))) "a = 1" "return a" rfl rfl rfl
  simpa [strRepeat, indent_str] using h

end Astx

namespace Astx

/-- Singleton case of `String.intercalate`. -/
theorem intercalate_singleton (s a : String) : String.intercalate s [a] = a := rfl

/-- Zero copies of a string is the empty string. -/
theorem strRepeat_zero (s : String) : strRepeat s 0 = "" := rfl

/-- The lambda in the `ImportFromExpr` handler is `fromImportLookup`. -/
theorem fromImportLookup_eq (module_str : String) :
    (fun name => "getattr(__import__('" ++ module_str ++ "', fromlist=['" ++ name ++
      "']), '" ++ name ++ "')") = fromImportLookup module_str := rfl

/-- The lambda in the `ImportExpr` handler is `importLookup`. -/
theorem importLookup_eq :
    (fun name => "__import__('" ++ name ++ "') ") = importLookup := rfl

/-- C9: `ImportFromStmt` renders its relative level as that many leading
dots prefixed to the module name — or as the dots alone when no module
name is present — with aliased names rendered `NAME as ALIAS` when an
alias is present, else `NAME`, joined in encounter order; in particular
level 2 with no module renders the module part as `..` and level 1 with
module `pkg` renders it as `.pkg`. -/
theorem importFromStmt_relative_level :
    (∀ (module : String) (ps : List (String × String)) (level lvl : Nat),
      module ≠ "" →
      visit (AST.ImportFromStmt module (ps.map fun p => AST.AliasExpr p.1 p.2) level)
          lvl =
        .ok ("from " ++ (strRepeat "." level ++ module) ++ " import " ++
          String.intercalate ", " (ps.map fun p =>
            if p.2 ≠ "" then p.1 ++ " as " ++ p.2 else p.1), lvl)) ∧
    (∀ (ps : List (String × String)) (level lvl : Nat),
      visit (AST.ImportFromStmt "" (ps.map fun p => AST.AliasExpr p.1 p.2) level) lvl =
        .ok ("from " ++ strRepeat "." level ++ " import " ++
          String.intercalate ", " (ps.map fun p =>
            if p.2 ≠ "" then p.1 ++ " as " ++ p.2 else p.1), lvl)) ∧
    visit (AST.ImportFromStmt "" [AST.AliasExpr "x" ""] 2) 0 =
      .ok ("from .. import x", 0) ∧
    visit (AST.ImportFromStmt "pkg" [AST.AliasExpr "x" ""] 1) 0 =
      .ok ("from .pkg import x", 0) := by
  refine ⟨?_, ?_, rfl, rfl⟩
  · intro module ps level lvl hmod
    simp only [visit, visitList_aliases]
    simp [hmod]
  · intro ps level lvl
    simp only [visit, visitList_aliases]
    simp

/-- Witness for `importFromStmt_relative_level` at a concrete input. -/
theorem importFromStmt_relative_level_witness :
    visit (AST.ImportFromStmt "pkg" [AST.AliasExpr "a" "b"] 1) 0 =
      .ok ("from .pkg import a as b", 0) := by
  have h := importFromStmt_relative_level.1 "pkg" [("a", "b")] 1 0 (by decide)
  exact h.trans (by rfl)

/-- C1: a from-import expression of exactly one name renders as the
unparenthesized single assignment `name = LOOKUP`, and one of `N > 1`
names renders as `name1, …, nameN = (LOOKUP1, …, LOOKUPN)` — numbered
synthetic bindings on the left, parenthesized tuple of lookup calls on
the right. -/
theorem importFromExpr_singular_plural :
    (∀ (module n : String) (lvl : Nat),
      visit (AST.ImportFromExpr module [AST.AliasExpr n ""] 0) lvl =
        .ok ("name = " ++ fromImportLookup module n, lvl)) ∧
    (∀ (module : String) (ns : List String) (lvl : Nat), 2 ≤ ns.length →
      visit (AST.ImportFromExpr module (ns.map fun n => AST.AliasExpr n "") 0) lvl =
        .ok (syntheticBindings "name" ns.length ++ " = " ++
          ("(" ++ String.intercalate ", " (ns.map (fromImportLookup module)) ++ ")"),
          lvl)) := by
  have hmods : ∀ module : String,
      (if module ≠ "" then strRepeat "." 0 ++ module else strRepeat "." 0) = module := by
    intro module
    by_cases h : module = "" <;> simp [h, strRepeat_zero]
  constructor
  · intro module n lvl
    have hv := visitList_plain_names [n] lvl
    simp only [List.map_cons, List.map_nil] at hv
    simp only [visit, hv, hmods]
    simp [List.range', fromImportLookup, intercalate_singleton]
  · intro module ns lvl hlen
    have hne : ns.length ≠ 1 := by omega
    have hv := visitList_plain_names ns lvl
    simp only [visit, hv, hmods]
    simp only [List.length_map]
    rw [if_neg (by simpa using hne)]
    simp [hne, syntheticBindings, fromImportLookup_eq, List.map_map, Function.comp_def]

/-- Witness for `importFromExpr_singular_plural` at a concrete input. -/
theorem importFromExpr_singular_plural_witness :
    visit (AST.ImportFromExpr "math"
        [AST.AliasExpr "sqrt" "", AST.AliasExpr "pi" ""] 0) 0 =
      .ok ("name1, name2 = (getattr(__import__('math', fromlist=['sqrt']), 'sqrt'), " ++
        "getattr(__import__('math', fromlist=['pi']), 'pi'))", 0) := by
  have h := importFromExpr_singular_plural.2 "math" ["sqrt", "pi"] 0 (by decide)
  exact h.trans (by rfl)

/-- C10: each module lookup emitted by `ImportExpr` is
`__import__('NAME')` followed by a trailing space; the single-module case
renders as `module = __import__('NAME') ` (ending in that space), and in
the plural case each tuple element keeps its trailing space before the
joining comma and before the closing parenthesis. -/
theorem importExpr_trailing_space :
    (∀ n : String, importLookup n = "__import__('" ++ n ++ "')" ++ " ") ∧
    (∀ (n : String) (lvl : Nat),
      visit (AST.ImportExpr [AST.AliasExpr n ""]) lvl =
        .ok ("module = " ++ importLookup n, lvl)) ∧
    (∀ (ns : List String) (lvl : Nat), 2 ≤ ns.length →
      visit (AST.ImportExpr (ns.map fun n => AST.AliasExpr n "")) lvl =
        .ok (syntheticBindings "module" ns.length ++ " = " ++
          ("(" ++ String.intercalate ", " (ns.map importLookup) ++ ")"), lvl)) := by
  refine ⟨?_, ?_, ?_⟩
  · intro n
    simp [importLookup, String.append_assoc]
  · intro n lvl
    have hv := visitList_plain_names [n] lvl
    simp only [List.map_cons, List.map_nil] at hv
    simp only [visit, hv]
    simp [List.range', importLookup, intercalate_singleton]
  · intro ns lvl hlen
    have hne : ns.length ≠ 1 := by omega
    have hv := visitList_plain_names ns lvl
    simp only [visit, hv]
    simp only [List.length_map]
    rw [if_neg (by simpa using hne)]
    simp [hne, syntheticBindings, importLookup_eq, List.map_map, Function.comp_def]

/-- Witness for `importExpr_trailing_space` at concrete inputs. -/
theorem importExpr_trailing_space_witness :
    visit (AST.ImportExpr [AST.AliasExpr "math" ""]) 0 =
        .ok ("module = __import__('math') ", 0) ∧
      visit (AST.ImportExpr [AST.AliasExpr "x" "", AST.AliasExpr "y" ""]) 0 =
        .ok ("module1, module2 = (__import__('x') , __import__('y') )", 0) := by
  constructor
  · have h := importExpr_trailing_space.2.1 "math" 0
    exact h.trans (by rfl)
  · have h := importExpr_trailing_space.2.2 ["x", "y"] 0 (by decide)
    exact h.trans (by rfl)

end Astx
